import Mathlib

/-
Verification of the Bronze Ingestor pipeline (src/ingestor.py).

The script is a single-pass file classifier: it ensures the destination
directories bronze/ and bad_data/ exist, enumerates the regular files in
landing/, moves each non-empty file to bronze/ and each empty file to
bad_data/, counts outcomes, and logs a run summary.

The embedding models the filesystem state visible to the script as a
`World`: existence flags for the three directories, association lists
(file name to byte size) for the regular files of landing/, bronze/ and
bad_data/, the list of subdirectories of landing/ (skipped by the
`is_file()` filter but seen by the final `glob("*")` check), and the log
as a list of (severity, message) events, one message constructor per
logging call site of the script.

Exceptions raised by `stat()` or `shutil.move()` are supplied by an
environment oracle `StepEnv` per file; a `stat` on a name absent from
landing/ raises FileNotFoundError in any case, mirroring the file having
disappeared between enumeration and processing.
-/

set_option maxHeartbeats 1000000

namespace Ingestor

/-- Severity levels of the Python `logging` module used by the script. -/
inductive Level
  | info
  | warning
  | error
  | critical
deriving DecidableEq

/-- Log messages emitted by ingestor.py, one constructor per logging call
site, carrying the data interpolated into the message text. -/
inductive LogMsg
  | separador
  | iniciandoPipeline
  | carpetasVerificadas
  | errorCriticoCarpetas
  | iniciandoProceso (name : String)
  | tamanioDetectado (n : Nat)
  | procesadoBronze (name : String) (n : Nat)
  | rechazadoBadData (name : String)
  | archivoNoEncontrado (name : String)
  | sinPermisos (name : String)
  | errorInesperado (name : String)
  | finalizadoIntento (name : String)
  | landingNoExiste
  | landingCreadaVacia
  | noSeEncontraronArchivos
  | archivosEncontrados (n : Nat)
  | resumenEjecucion
  | totalArchivos (n : Nat)
  | movidosBronze (n : Nat)
  | movidosBadData (n : Nat)
  | erroresResumen (n : Nat)
  | duracionSegundos
  | advertenciaQuedan (n : Nat)
  | landingVaciaExito
  | errorFatalPipeline
deriving DecidableEq

/-- One log line: severity paired with the message event. -/
abbrev Entry := Level × LogMsg

/-- Exception classes distinguished by the `except` clauses of
`procesar_archivo`. -/
inductive PyExc
  | fileNotFound
  | permission
  | otherExc
deriving DecidableEq

/-- Environment outcome for one file's processing step: whether the `stat`
call or the `shutil.move` call raises, and with which exception class. -/
inductive StepEnv
  | ok
  | statRaises (e : PyExc)
  | moveRaises (e : PyExc)
deriving DecidableEq

/-- Whether the environment makes this step raise an exception. -/
def StepEnv.isError : StepEnv → Bool
  | .ok => false
  | .statRaises _ => true
  | .moveRaises _ => true

/-- Remove every entry with the given file name from a directory listing. -/
def eraseKey (k : String) : List (String × Nat) → List (String × Nat)
  | [] => []
  | (n, s) :: rest => if n = k then eraseKey k rest else (n, s) :: eraseKey k rest

/-- Place a file of the given name and size into a directory listing,
overwriting any existing file of the same name (the `shutil.move`
overwrite semantics). -/
def insertKey (k : String) (v : Nat) (l : List (String × Nat)) : List (String × Nat) :=
  (k, v) :: eraseKey k l

/-- Whether a file of the given name exists in a directory listing. -/
def hasKey (k : String) : List (String × Nat) → Bool
  | [] => false
  | (n, _) :: rest => if n = k then true else hasKey k rest

/-- Size of the file of the given name, none if absent (a `stat` on an
absent name raises FileNotFoundError). -/
def lookupKey (k : String) : List (String × Nat) → Option Nat
  | [] => none
  | (n, s) :: rest => if n = k then some s else lookupKey k rest

/-- File names of a directory listing, in enumeration order. -/
def keys (l : List (String × Nat)) : List String :=
  l.map Prod.fst

/-- Filesystem state visible to the script, plus the accumulated log. -/
structure World where
  landingDirExists : Bool
  bronzeDirExists : Bool
  badDataDirExists : Bool
  landing : List (String × Nat)
  landingSubdirs : List String
  bronze : List (String × Nat)
  badData : List (String × Nat)
  log : List Entry
deriving DecidableEq

/-- Append one log line (the handlers write it to file and stdout). -/
def logA (w : World) (en : Entry) : World :=
  { w with log := w.log ++ [en] }

/-- The log line produced by the matching `except` clause of
`procesar_archivo` for each exception class. -/
def excLog (name : String) : PyExc → Entry
  | .fileNotFound => (Level.error, LogMsg.archivoNoEncontrado name)
  | .permission => (Level.error, LogMsg.sinPermisos name)
  | .otherExc => (Level.error, LogMsg.errorInesperado name)

/-- `crear_carpetas_destino`: create bronze/ and bad_data/ if absent. The
two booleans say whether each `mkdir` call succeeds; on failure the
function logs at critical severity and re-raises (second component
`false`). `bronze` is created first, so its flag may be set even when the
second `mkdir` fails. -/
def crear_carpetas_destino (w : World) (mkBronzeOk mkBadOk : Bool) : World × Bool :=
  if mkBronzeOk = false then
    (logA w (Level.critical, LogMsg.errorCriticoCarpetas), false)
  else
    let w1 : World := { w with bronzeDirExists := true }
    if mkBadOk = false then
      (logA w1 (Level.critical, LogMsg.errorCriticoCarpetas), false)
    else
      (logA { w1 with badDataDirExists := true } (Level.info, LogMsg.carpetasVerificadas), true)

/-- `procesar_archivo`: stat the file, move it to bronze/ if its size is
positive and to bad_data/ if it is zero; any exception during stat or
move is caught by the matching `except` clause, logged, and turned into
the return value `false`; `true` means the move was performed. The
`finally` block logs in every path. -/
def procesar_archivo (w : World) (name : String) (ev : StepEnv) : Bool × World :=
  let wa := logA w (Level.info, LogMsg.iniciandoProceso name)
  match ev with
  | .statRaises e =>
      (false, logA (logA wa (excLog name e)) (Level.info, LogMsg.finalizadoIntento name))
  | .moveRaises e =>
      match lookupKey name wa.landing with
      | none =>
          (false, logA (logA wa (Level.error, LogMsg.archivoNoEncontrado name))
            (Level.info, LogMsg.finalizadoIntento name))
      | some s =>
          (false, logA (logA (logA wa (Level.info, LogMsg.tamanioDetectado s)) (excLog name e))
            (Level.info, LogMsg.finalizadoIntento name))
  | .ok =>
      match lookupKey name wa.landing with
      | none =>
          (false, logA (logA wa (Level.error, LogMsg.archivoNoEncontrado name))
            (Level.info, LogMsg.finalizadoIntento name))
      | some s =>
          let wb := logA wa (Level.info, LogMsg.tamanioDetectado s)
          if 0 < s then
            (true, logA (logA
              { wb with landing := eraseKey name wb.landing,
                        bronze := insertKey name s wb.bronze }
              (Level.info, LogMsg.procesadoBronze name s))
              (Level.info, LogMsg.finalizadoIntento name))
          else
            (true, logA (logA
              { wb with landing := eraseKey name wb.landing,
                        badData := insertKey name s wb.badData }
              (Level.warning, LogMsg.rechazadoBadData name))
              (Level.info, LogMsg.finalizadoIntento name))

/-- The `for archivo in archivos` loop of `ejecutar_pipeline`: process each
file and update the three counters. A file whose processing returned
`true` is attributed by checking whether `bronze/<name>` exists now - the
script does not use the direction of the move. -/
def procesar_loop (evs : String → StepEnv) : List String → World → Nat → Nat → Nat →
    World × Nat × Nat × Nat
  | [], w, p, r, e => (w, p, r, e)
  | name :: rest, w, p, r, e =>
      let pr := procesar_archivo w name (evs name)
      if pr.1 then
        if hasKey name pr.2.bronze then
          procesar_loop evs rest pr.2 (p + 1) r e
        else
          procesar_loop evs rest pr.2 p (r + 1) e
      else
        procesar_loop evs rest pr.2 p r (e + 1)

/-- The block of summary log lines emitted after the loop. -/
def resumenLog (total p r e : Nat) : List Entry :=
  [(Level.info, LogMsg.separador), (Level.info, LogMsg.resumenEjecucion),
   (Level.info, LogMsg.separador), (Level.info, LogMsg.totalArchivos total),
   (Level.info, LogMsg.movidosBronze p), (Level.info, LogMsg.movidosBadData r),
   (Level.info, LogMsg.erroresResumen e), (Level.info, LogMsg.duracionSegundos),
   (Level.info, LogMsg.separador)]

/-- How a run of `ejecutar_pipeline` ends: the fatal re-raise, the two
early returns, or the full run with its three counters and whether the
final check found entries left in landing/. -/
inductive RunResult
  | fatal
  | landingCreada
  | sinArchivos
  | done (p r e : Nat) (leftover : Bool)
deriving DecidableEq

/-- `ejecutar_pipeline`: the whole run. Creates the destination
directories (fatal on failure), creates landing/ empty and returns if it
is absent, returns if no file is found, otherwise processes every
enumerated file, logs the summary and the final landing/ check. -/
def ejecutar_pipeline (w : World) (mkBronzeOk mkBadOk : Bool) (evs : String → StepEnv) :
    World × RunResult :=
  let wh := logA (logA (logA w (Level.info, LogMsg.separador))
    (Level.info, LogMsg.iniciandoPipeline)) (Level.info, LogMsg.separador)
  let cc := crear_carpetas_destino wh mkBronzeOk mkBadOk
  if cc.2 = false then
    (logA cc.1 (Level.critical, LogMsg.errorFatalPipeline), RunResult.fatal)
  else
    let w1 := cc.1
    if w1.landingDirExists = false then
      let w2 := logA (logA w1 (Level.error, LogMsg.landingNoExiste))
        (Level.warning, LogMsg.landingCreadaVacia)
      ({ w2 with landingDirExists := true }, RunResult.landingCreada)
    else
      let archivos := keys w1.landing
      if archivos.isEmpty then
        (logA w1 (Level.warning, LogMsg.noSeEncontraronArchivos), RunResult.sinArchivos)
      else
        let w2 := logA w1 (Level.info, LogMsg.archivosEncontrados archivos.length)
        let lp := procesar_loop evs archivos w2 0 0 0
        let w3 := lp.1
        let restantes := keys w3.landing ++ w3.landingSubdirs
        let finalEntry : Entry :=
          if restantes.isEmpty then (Level.info, LogMsg.landingVaciaExito)
          else (Level.warning, LogMsg.advertenciaQuedan restantes.length)
        ({ w3 with log := w3.log ++ resumenLog archivos.length lp.2.1 lp.2.2.1 lp.2.2.2
            ++ [finalEntry] },
         RunResult.done lp.2.1 lp.2.2.1 lp.2.2.2 (!restantes.isEmpty))

/-- Whether a log contains any of the summary-count lines or the final
landing/ check lines (warning about leftovers or success confirmation). -/
def mentionsResumen (log : List Entry) : Bool :=
  log.any fun en =>
    match en.2 with
    | LogMsg.movidosBronze _ => true
    | LogMsg.movidosBadData _ => true
    | LogMsg.erroresResumen _ => true
    | LogMsg.advertenciaQuedan _ => true
    | LogMsg.landingVaciaExito => true
    | _ => false

/-- A world for concrete runs: all three directories exist, no files
anywhere beyond the stated listings, empty log. -/
def mkWorld (landing : List (String × Nat)) (bronze badData : List (String × Nat))
    (subdirs : List String) : World :=
  { landingDirExists := true, bronzeDirExists := true, badDataDirExists := true,
    landing := landing, landingSubdirs := subdirs, bronze := bronze,
    badData := badData, log := [] }

/-- One non-empty file waiting in landing/. -/
def wUno : World := mkWorld [("datos.csv", 3)] [] [] []

/-- One non-empty and one empty file waiting in landing/. -/
def wDos : World := mkWorld [("datos.csv", 3), ("vacio.csv", 0)] [] [] []

/-- An empty landing/ file whose name already exists in bronze/. -/
def wColision : World := mkWorld [("datos.csv", 0)] [("datos.csv", 5)] [] []

/-- A landing/ that holds no regular file, only a subdirectory. -/
def wSinArchivos : World := mkWorld [] [] [] ["subcarpeta"]

/-- A fully empty landing/. -/
def wVacio : World := mkWorld [] [] [] []

/-- An environment in which every stat call raises FileNotFoundError. -/
def evsError : String → StepEnv := fun _ => StepEnv.statRaises PyExc.fileNotFound

/-- Location outcome for one tracked file after the run: an errored file is
still in landing/ and in neither destination; a processed file left
landing/ and sits in exactly the destination its size selects. -/
def trackedOutcome (err : Bool) (s : Nat) (w : World) (name : String) : Prop :=
  if err then
    hasKey name w.landing = true ∧ hasKey name w.bronze = false ∧
      hasKey name w.badData = false
  else
    hasKey name w.landing = false ∧
      ((0 < s ∧ hasKey name w.bronze = true ∧ hasKey name w.badData = false) ∨
       (s = 0 ∧ hasKey name w.bronze = false ∧ hasKey name w.badData = true))

/-- The world just before the processing loop of a full run: destination
directories ensured, header and enumeration lines logged. -/
def preRun (w : World) (n : Nat) : World :=
  { w with
    bronzeDirExists := true
    badDataDirExists := true
    log := w.log ++ [(Level.info, LogMsg.separador), (Level.info, LogMsg.iniciandoPipeline),
      (Level.info, LogMsg.separador), (Level.info, LogMsg.carpetasVerificadas),
      (Level.info, LogMsg.archivosEncontrados n)] }

@[simp] theorem logA_landing (w : World) (en : Entry) : (logA w en).landing = w.landing := rfl

@[simp] theorem logA_bronze (w : World) (en : Entry) : (logA w en).bronze = w.bronze := rfl

@[simp] theorem logA_badData (w : World) (en : Entry) : (logA w en).badData = w.badData := rfl

@[simp] theorem logA_landingDirExists (w : World) (en : Entry) :
    (logA w en).landingDirExists = w.landingDirExists := rfl

@[simp] theorem logA_bronzeDirExists (w : World) (en : Entry) :
    (logA w en).bronzeDirExists = w.bronzeDirExists := rfl

@[simp] theorem logA_badDataDirExists (w : World) (en : Entry) :
    (logA w en).badDataDirExists = w.badDataDirExists := rfl

@[simp] theorem logA_landingSubdirs (w : World) (en : Entry) :
    (logA w en).landingSubdirs = w.landingSubdirs := rfl

@[simp] theorem logA_log (w : World) (en : Entry) : (logA w en).log = w.log ++ [en] := rfl

theorem hasKey_eraseKey_self (k : String) (l : List (String × Nat)) :
    hasKey k (eraseKey k l) = false := by
  induction l with
  | nil => rfl
  | cons hd tl ih =>
    obtain ⟨n, s⟩ := hd
    by_cases h : n = k
    · simpa [eraseKey, h] using ih
    · simpa [eraseKey, hasKey, h] using ih

theorem hasKey_eraseKey_ne (n k : String) (l : List (String × Nat)) (h : n ≠ k) :
    hasKey n (eraseKey k l) = hasKey n l := by
  induction l with
  | nil => rfl
  | cons hd tl ih =>
    obtain ⟨m, s⟩ := hd
    by_cases hm : m = k
    · subst hm
      have hmn : m ≠ n := fun hc => h hc.symm
      simp [eraseKey, hasKey, hmn, ih]
    · simp [eraseKey, hasKey, hm, ih]

theorem hasKey_insertKey_self (k : String) (v : Nat) (l : List (String × Nat)) :
    hasKey k (insertKey k v l) = true := by
  simp [insertKey, hasKey]

theorem hasKey_insertKey_ne (n k : String) (v : Nat) (l : List (String × Nat)) (h : n ≠ k) :
    hasKey n (insertKey k v l) = hasKey n l := by
  have hk : k ≠ n := fun hc => h hc.symm
  simp [insertKey, hasKey, hk, hasKey_eraseKey_ne n k l h]

theorem lookupKey_eraseKey_ne (n k : String) (l : List (String × Nat)) (h : n ≠ k) :
    lookupKey n (eraseKey k l) = lookupKey n l := by
  induction l with
  | nil => rfl
  | cons hd tl ih =>
    obtain ⟨m, s⟩ := hd
    by_cases hm : m = k
    · subst hm
      have hmn : m ≠ n := fun hc => h hc.symm
      simp [eraseKey, lookupKey, hmn, ih]
    · simp [eraseKey, lookupKey, hm, ih]

theorem hasKey_eq_isSome (n : String) (l : List (String × Nat)) :
    hasKey n l = (lookupKey n l).isSome := by
  induction l with
  | nil => rfl
  | cons hd tl ih =>
    obtain ⟨m, s⟩ := hd
    by_cases hm : m = n
    · simp [hasKey, lookupKey, hm]
    · simp [hasKey, lookupKey, hm, ih]

theorem mem_keys_of_lookupKey (n : String) (l : List (String × Nat)) (s : Nat)
    (h : lookupKey n l = some s) : n ∈ keys l := by
  induction l with
  | nil => simp [lookupKey] at h
  | cons hd tl ih =>
    obtain ⟨m, v⟩ := hd
    by_cases hm : m = n
    · simp [keys, hm]
    · simp only [lookupKey, hm, if_false] at h
      exact List.mem_cons_of_mem _ (ih h)

theorem landing_ne_nil_of_lookupKey (n : String) (l : List (String × Nat)) (s : Nat)
    (h : lookupKey n l = some s) : l ≠ [] := by
  intro hl
  rw [hl] at h
  simp [lookupKey] at h

theorem procesar_archivo_flags (w : World) (name : String) (ev : StepEnv) :
    (procesar_archivo w name ev).2.landingDirExists = w.landingDirExists ∧
    (procesar_archivo w name ev).2.bronzeDirExists = w.bronzeDirExists ∧
    (procesar_archivo w name ev).2.badDataDirExists = w.badDataDirExists ∧
    (procesar_archivo w name ev).2.landingSubdirs = w.landingSubdirs := by
  cases ev with
  | statRaises e => simp [procesar_archivo]
  | moveRaises e =>
    simp only [procesar_archivo, logA_landing]
    cases lookupKey name w.landing <;> simp
  | ok =>
    simp only [procesar_archivo, logA_landing]
    cases lookupKey name w.landing with
    | none => simp
    | some s =>
      by_cases hs : 0 < s <;> simp [hs, logA]

theorem procesar_archivo_error (w : World) (name : String) (ev : StepEnv)
    (h : ev.isError = true) :
    (procesar_archivo w name ev).1 = false ∧
    (procesar_archivo w name ev).2.landing = w.landing ∧
    (procesar_archivo w name ev).2.bronze = w.bronze ∧
    (procesar_archivo w name ev).2.badData = w.badData := by
  cases ev with
  | ok => simp [StepEnv.isError] at h
  | statRaises e => simp [procesar_archivo]
  | moveRaises e =>
    simp only [procesar_archivo, logA_landing]
    cases lookupKey name w.landing <;> simp

theorem procesar_archivo_ok_none (w : World) (name : String)
    (h : lookupKey name w.landing = none) :
    (procesar_archivo w name StepEnv.ok).1 = false ∧
    (procesar_archivo w name StepEnv.ok).2.landing = w.landing ∧
    (procesar_archivo w name StepEnv.ok).2.bronze = w.bronze ∧
    (procesar_archivo w name StepEnv.ok).2.badData = w.badData := by
  simp only [procesar_archivo, logA_landing, h]
  simp

theorem procesar_archivo_ok_some (w : World) (name : String) (s : Nat)
    (h : lookupKey name w.landing = some s) :
    (procesar_archivo w name StepEnv.ok).1 = true ∧
    (procesar_archivo w name StepEnv.ok).2.landing = eraseKey name w.landing ∧
    (0 < s →
      (procesar_archivo w name StepEnv.ok).2.bronze = insertKey name s w.bronze ∧
      (procesar_archivo w name StepEnv.ok).2.badData = w.badData) ∧
    (s = 0 →
      (procesar_archivo w name StepEnv.ok).2.badData = insertKey name s w.badData ∧
      (procesar_archivo w name StepEnv.ok).2.bronze = w.bronze) := by
  simp only [procesar_archivo, logA_landing, h]
  by_cases hs : 0 < s
  · simp [hs, logA]
    omega
  · have hz : s = 0 := by omega
    simp [hs, hz, logA]

theorem procesar_archivo_preserves (w : World) (n name : String) (ev : StepEnv)
    (h : n ≠ name) :
    lookupKey n (procesar_archivo w name ev).2.landing = lookupKey n w.landing ∧
    hasKey n (procesar_archivo w name ev).2.bronze = hasKey n w.bronze ∧
    hasKey n (procesar_archivo w name ev).2.badData = hasKey n w.badData := by
  cases ev with
  | statRaises e => simp [procesar_archivo]
  | moveRaises e =>
    simp only [procesar_archivo, logA_landing]
    cases lookupKey name w.landing <;> simp
  | ok =>
    simp only [procesar_archivo, logA_landing]
    cases lookupKey name w.landing with
    | none => simp
    | some s =>
      by_cases hs : 0 < s <;>
        simp [hs, logA, lookupKey_eraseKey_ne n name _ h, hasKey_insertKey_ne n name _ _ h]

theorem procesar_loop_cons (evs : String → StepEnv) (name : String) (rest : List String)
    (w : World) (p r e : Nat) :
    procesar_loop evs (name :: rest) w p r e =
      if (procesar_archivo w name (evs name)).1 then
        if hasKey name (procesar_archivo w name (evs name)).2.bronze then
          procesar_loop evs rest (procesar_archivo w name (evs name)).2 (p + 1) r e
        else procesar_loop evs rest (procesar_archivo w name (evs name)).2 p (r + 1) e
      else procesar_loop evs rest (procesar_archivo w name (evs name)).2 p r (e + 1) := rfl

theorem procesar_loop_sum (evs : String → StepEnv) :
    ∀ (ns : List String) (w : World) (p r e : Nat),
      (procesar_loop evs ns w p r e).2.1 + (procesar_loop evs ns w p r e).2.2.1 +
        (procesar_loop evs ns w p r e).2.2.2 = p + r + e + ns.length := by
  intro ns
  induction ns with
  | nil => intro w p r e; simp [procesar_loop]
  | cons name rest ih =>
    intro w p r e
    rw [procesar_loop_cons]
    split
    · split
      · rw [ih, List.length_cons]; omega
      · rw [ih, List.length_cons]; omega
    · rw [ih, List.length_cons]; omega

theorem procesar_loop_flags (evs : String → StepEnv) :
    ∀ (ns : List String) (w : World) (p r e : Nat),
      (procesar_loop evs ns w p r e).1.landingDirExists = w.landingDirExists ∧
      (procesar_loop evs ns w p r e).1.bronzeDirExists = w.bronzeDirExists ∧
      (procesar_loop evs ns w p r e).1.badDataDirExists = w.badDataDirExists ∧
      (procesar_loop evs ns w p r e).1.landingSubdirs = w.landingSubdirs := by
  intro ns
  induction ns with
  | nil => intro w p r e; simp [procesar_loop]
  | cons name rest ih =>
    intro w p r e
    have hp := procesar_archivo_flags w name (evs name)
    rw [procesar_loop_cons]
    split
    · split
      · obtain ⟨i1, i2, i3, i4⟩ := ih (procesar_archivo w name (evs name)).2 (p + 1) r e
        exact ⟨i1.trans hp.1, i2.trans hp.2.1, i3.trans hp.2.2.1, i4.trans hp.2.2.2⟩
      · obtain ⟨i1, i2, i3, i4⟩ := ih (procesar_archivo w name (evs name)).2 p (r + 1) e
        exact ⟨i1.trans hp.1, i2.trans hp.2.1, i3.trans hp.2.2.1, i4.trans hp.2.2.2⟩
    · obtain ⟨i1, i2, i3, i4⟩ := ih (procesar_archivo w name (evs name)).2 p r (e + 1)
      exact ⟨i1.trans hp.1, i2.trans hp.2.1, i3.trans hp.2.2.1, i4.trans hp.2.2.2⟩

theorem procesar_loop_preserves (evs : String → StepEnv) (name : String) :
    ∀ (ns : List String) (w : World) (p r e : Nat), name ∉ ns →
      lookupKey name (procesar_loop evs ns w p r e).1.landing = lookupKey name w.landing ∧
      hasKey name (procesar_loop evs ns w p r e).1.bronze = hasKey name w.bronze ∧
      hasKey name (procesar_loop evs ns w p r e).1.badData = hasKey name w.badData := by
  intro ns
  induction ns with
  | nil => intro w p r e _; simp [procesar_loop]
  | cons hd rest ih =>
    intro w p r e h
    have hne : name ≠ hd := fun hc => h (hc ▸ List.mem_cons_self hd rest)
    have hrest : name ∉ rest := fun hc => h (List.mem_cons_of_mem hd hc)
    have hp := procesar_archivo_preserves w name hd (evs hd) hne
    rw [procesar_loop_cons]
    split
    · split
      · obtain ⟨i1, i2, i3⟩ := ih (procesar_archivo w hd (evs hd)).2 (p + 1) r e hrest
        exact ⟨i1.trans hp.1, i2.trans hp.2.1, i3.trans hp.2.2⟩
      · obtain ⟨i1, i2, i3⟩ := ih (procesar_archivo w hd (evs hd)).2 p (r + 1) e hrest
        exact ⟨i1.trans hp.1, i2.trans hp.2.1, i3.trans hp.2.2⟩
    · obtain ⟨i1, i2, i3⟩ := ih (procesar_archivo w hd (evs hd)).2 p r (e + 1) hrest
      exact ⟨i1.trans hp.1, i2.trans hp.2.1, i3.trans hp.2.2⟩

theorem procesar_loop_tracked (evs : String → StepEnv) (name : String) (s : Nat) :
    ∀ (ns : List String) (w : World) (p r e : Nat),
      name ∈ ns → ns.Nodup →
      lookupKey name w.landing = some s →
      hasKey name w.bronze = false →
      hasKey name w.badData = false →
      trackedOutcome ((evs name).isError) s (procesar_loop evs ns w p r e).1 name := by
  intro ns
  induction ns with
  | nil => intro w p r e hmem _ _ _ _; simp at hmem
  | cons hd rest ih =>
    intro w p r e hmem hnodup hlk hbz hbd
    by_cases hhd : name = hd
    · subst hhd
      have hrest : name ∉ rest := (List.nodup_cons.mp hnodup).1
      rw [procesar_loop_cons]
      cases hev : (evs name).isError with
      | true =>
        have he := procesar_archivo_error w name (evs name) hev
        simp only [he.1, Bool.false_eq_true, if_false]
        obtain ⟨i1, i2, i3⟩ :=
          procesar_loop_preserves evs name rest (procesar_archivo w name (evs name)).2
            p r (e + 1) hrest
        simp only [trackedOutcome, hev, if_true]
        refine ⟨?_, ?_, ?_⟩
        · rw [hasKey_eq_isSome, i1, he.2.1, hlk]; rfl
        · rw [i2, he.2.2.1, hbz]
        · rw [i3, he.2.2.2, hbd]
      | false =>
        have hok : evs name = StepEnv.ok := by
          cases hevt : evs name
          · rfl
          · rw [hevt] at hev; simp [StepEnv.isError] at hev
          · rw [hevt] at hev; simp [StepEnv.isError] at hev
        rw [hok]
        have ho := procesar_archivo_ok_some w name s hlk
        simp only [ho.1, if_true]
        simp only [trackedOutcome, hev, Bool.false_eq_true, if_false]
        by_cases hs : 0 < s
        · have hbr := ho.2.2.1 hs
          have hkb : hasKey name (procesar_archivo w name StepEnv.ok).2.bronze = true := by
            rw [hbr.1, hasKey_insertKey_self]
          simp only [hkb, if_true]
          obtain ⟨i1, i2, i3⟩ :=
            procesar_loop_preserves evs name rest (procesar_archivo w name StepEnv.ok).2
              (p + 1) r e hrest
          refine ⟨?_, Or.inl ⟨hs, ?_, ?_⟩⟩
          · rw [hasKey_eq_isSome, i1, ho.2.1, ← hasKey_eq_isSome, hasKey_eraseKey_self]
          · rw [i2, hkb]
          · rw [i3, hbr.2, hbd]
        · have hz : s = 0 := by omega
          have hbr := ho.2.2.2 hz
          have hkb : hasKey name (procesar_archivo w name StepEnv.ok).2.bronze = false := by
            rw [hbr.2, hbz]
          simp only [hkb, Bool.false_eq_true, if_false]
          obtain ⟨i1, i2, i3⟩ :=
            procesar_loop_preserves evs name rest (procesar_archivo w name StepEnv.ok).2
              p (r + 1) e hrest
          refine ⟨?_, Or.inr ⟨hz, ?_, ?_⟩⟩
          · rw [hasKey_eq_isSome, i1, ho.2.1, ← hasKey_eq_isSome, hasKey_eraseKey_self]
          · rw [i2, hkb]
          · rw [i3, hbr.1, hasKey_insertKey_self]
    · have hmr : name ∈ rest := by
        cases List.mem_cons.mp hmem with
        | inl hc => exact absurd hc hhd
        | inr hc => exact hc
      have hnr : rest.Nodup := (List.nodup_cons.mp hnodup).2
      have hpres := procesar_archivo_preserves w name hd (evs hd) hhd
      rw [procesar_loop_cons]
      split
      · split
        · exact ih _ _ _ _ hmr hnr (hpres.1.trans hlk) (hpres.2.1.trans hbz)
            (hpres.2.2.trans hbd)
        · exact ih _ _ _ _ hmr hnr (hpres.1.trans hlk) (hpres.2.1.trans hbz)
            (hpres.2.2.trans hbd)
      · exact ih _ _ _ _ hmr hnr (hpres.1.trans hlk) (hpres.2.1.trans hbz)
          (hpres.2.2.trans hbd)

@[simp] theorem keys_length (l : List (String × Nat)) : (keys l).length = l.length := by
  simp [keys]

theorem keys_isEmpty_false (l : List (String × Nat)) (h : l ≠ []) :
    (keys l).isEmpty = false := by
  cases l with
  | nil => exact absurd rfl h
  | cons hd tl => simp [keys]

theorem keys_ne_nil (l : List (String × Nat)) (h : l ≠ []) : keys l ≠ [] := by
  cases l with
  | nil => exact absurd rfl h
  | cons hd tl => simp [keys]

theorem pipeline_fatal_spec (w : World) (mk1 mk2 : Bool) (evs : String → StepEnv)
    (h : mk1 = false ∨ mk2 = false) :
    (ejecutar_pipeline w mk1 mk2 evs).2 = RunResult.fatal ∧
    (ejecutar_pipeline w mk1 mk2 evs).1.landing = w.landing ∧
    (ejecutar_pipeline w mk1 mk2 evs).1.bronze = w.bronze ∧
    (ejecutar_pipeline w mk1 mk2 evs).1.badData = w.badData ∧
    (Level.critical, LogMsg.errorCriticoCarpetas) ∈ (ejecutar_pipeline w mk1 mk2 evs).1.log ∧
    (Level.critical, LogMsg.errorFatalPipeline) ∈ (ejecutar_pipeline w mk1 mk2 evs).1.log := by
  cases mk1 with
  | false => simp [ejecutar_pipeline, crear_carpetas_destino, logA]
  | true =>
    cases mk2 with
    | false => simp [ejecutar_pipeline, crear_carpetas_destino, logA]
    | true => simp at h

theorem pipeline_noLanding_spec (w : World) (evs : String → StepEnv)
    (h : w.landingDirExists = false) :
    (ejecutar_pipeline w true true evs).2 = RunResult.landingCreada ∧
    (ejecutar_pipeline w true true evs).1.landingDirExists = true ∧
    (ejecutar_pipeline w true true evs).1.landing = w.landing ∧
    (ejecutar_pipeline w true true evs).1.bronze = w.bronze ∧
    (ejecutar_pipeline w true true evs).1.badData = w.badData := by
  simp [ejecutar_pipeline, crear_carpetas_destino, logA, h]

theorem pipeline_sinArchivos_spec (w : World) (evs : String → StepEnv)
    (hdir : w.landingDirExists = true) (hl : w.landing = []) :
    (ejecutar_pipeline w true true evs).2 = RunResult.sinArchivos ∧
    (ejecutar_pipeline w true true evs).1.landingDirExists = true ∧
    (ejecutar_pipeline w true true evs).1.landing = w.landing ∧
    (ejecutar_pipeline w true true evs).1.bronze = w.bronze ∧
    (ejecutar_pipeline w true true evs).1.badData = w.badData := by
  simp [ejecutar_pipeline, crear_carpetas_destino, logA, hdir, hl, keys, List.isEmpty]

theorem preRun_eq (w : World) (n : Nat) :
    logA (crear_carpetas_destino (logA (logA (logA w (Level.info, LogMsg.separador))
      (Level.info, LogMsg.iniciandoPipeline)) (Level.info, LogMsg.separador)) true true).1
      (Level.info, LogMsg.archivosEncontrados n) = preRun w n := by
  simp [crear_carpetas_destino, logA, preRun]

theorem pipeline_done_spec (w : World) (evs : String → StepEnv)
    (hdir : w.landingDirExists = true) (hne : w.landing ≠ []) :
    (ejecutar_pipeline w true true evs).2 =
      RunResult.done
        (procesar_loop evs (keys w.landing) (preRun w w.landing.length) 0 0 0).2.1
        (procesar_loop evs (keys w.landing) (preRun w w.landing.length) 0 0 0).2.2.1
        (procesar_loop evs (keys w.landing) (preRun w w.landing.length) 0 0 0).2.2.2
        (!(keys (procesar_loop evs (keys w.landing) (preRun w w.landing.length) 0 0 0).1.landing
           ++ (procesar_loop evs (keys w.landing)
                (preRun w w.landing.length) 0 0 0).1.landingSubdirs).isEmpty) ∧
    (ejecutar_pipeline w true true evs).1.landing =
      (procesar_loop evs (keys w.landing) (preRun w w.landing.length) 0 0 0).1.landing ∧
    (ejecutar_pipeline w true true evs).1.bronze =
      (procesar_loop evs (keys w.landing) (preRun w w.landing.length) 0 0 0).1.bronze ∧
    (ejecutar_pipeline w true true evs).1.badData =
      (procesar_loop evs (keys w.landing) (preRun w w.landing.length) 0 0 0).1.badData ∧
    (ejecutar_pipeline w true true evs).1.landingSubdirs =
      (procesar_loop evs (keys w.landing) (preRun w w.landing.length) 0 0 0).1.landingSubdirs ∧
    (ejecutar_pipeline w true true evs).1.log =
      (procesar_loop evs (keys w.landing) (preRun w w.landing.length) 0 0 0).1.log ++
        resumenLog w.landing.length
          (procesar_loop evs (keys w.landing) (preRun w w.landing.length) 0 0 0).2.1
          (procesar_loop evs (keys w.landing) (preRun w w.landing.length) 0 0 0).2.2.1
          (procesar_loop evs (keys w.landing) (preRun w w.landing.length) 0 0 0).2.2.2 ++
        [if (keys (procesar_loop evs (keys w.landing)
              (preRun w w.landing.length) 0 0 0).1.landing
            ++ (procesar_loop evs (keys w.landing)
                 (preRun w w.landing.length) 0 0 0).1.landingSubdirs).isEmpty
         then (Level.info, LogMsg.landingVaciaExito)
         else (Level.warning, LogMsg.advertenciaQuedan
           (keys (procesar_loop evs (keys w.landing)
              (preRun w w.landing.length) 0 0 0).1.landing
            ++ (procesar_loop evs (keys w.landing)
                 (preRun w w.landing.length) 0 0 0).1.landingSubdirs).length)] := by
  have hkeys := keys_isEmpty_false w.landing hne
  simp only [ejecutar_pipeline]
  rw [preRun_eq]
  simp [crear_carpetas_destino, logA, hdir, hkeys, preRun]

theorem pipeline_done_dirs (w : World) (evs : String → StepEnv)
    (hdir : w.landingDirExists = true) (hne : w.landing ≠ []) :
    (ejecutar_pipeline w true true evs).1.bronzeDirExists = true ∧
    (ejecutar_pipeline w true true evs).1.badDataDirExists = true := by
  have hkeys := keys_isEmpty_false w.landing hne
  have hknil := keys_ne_nil w.landing hne
  have hfl := procesar_loop_flags evs (keys w.landing) (preRun w w.landing.length) 0 0 0
  simp only [ejecutar_pipeline]
  rw [preRun_eq]
  simp only [crear_carpetas_destino, logA, hdir, hkeys, preRun] at hfl ⊢
  simp [hfl.2.1, hfl.2.2.1, hknil]

theorem pipeline_empty_preserves (w : World) (evs : String → StepEnv)
    (hl : w.landing = []) :
    (ejecutar_pipeline w true true evs).1.bronze = w.bronze ∧
    (ejecutar_pipeline w true true evs).1.badData = w.badData := by
  cases hdir : w.landingDirExists with
  | false =>
    have hs := pipeline_noLanding_spec w evs hdir
    exact ⟨hs.2.2.2.1, hs.2.2.2.2⟩
  | true =>
    have hs := pipeline_sinArchivos_spec w evs hdir hl
    exact ⟨hs.2.2.2.1, hs.2.2.2.2⟩

/-- C1: a file whose byte size is read successfully and whose move succeeds
(environment `ok`, the file present in landing/ with size `s`) is removed
from landing/ and placed in bronze/ when `0 < s` and in bad_data/ when
`s = 0`, leaving the other destination untouched. -/
theorem claim_C1_clasificacion (w : World) (name : String) (s : Nat)
    (h : lookupKey name w.landing = some s) :
    (procesar_archivo w name StepEnv.ok).1 = true ∧
    (procesar_archivo w name StepEnv.ok).2.landing = eraseKey name w.landing ∧
    (0 < s →
      (procesar_archivo w name StepEnv.ok).2.bronze = insertKey name s w.bronze ∧
      (procesar_archivo w name StepEnv.ok).2.badData = w.badData) ∧
    (s = 0 →
      (procesar_archivo w name StepEnv.ok).2.badData = insertKey name s w.badData ∧
      (procesar_archivo w name StepEnv.ok).2.bronze = w.bronze) :=
  procesar_archivo_ok_some w name s h

/-- Witness for C1: the 3-byte file datos.csv is moved into bronze/. -/
theorem claim_C1_witness :
    lookupKey "datos.csv" wUno.landing = some 3 ∧
    (procesar_archivo wUno "datos.csv" StepEnv.ok).2.bronze =
      insertKey "datos.csv" 3 wUno.bronze :=
  ⟨by decide, ((claim_C1_clasificacion wUno "datos.csv" 3 (by decide)).2.2.1 (by decide)).1⟩

/-- C2: in a run over a landing/ whose enumerated names are distinct and
absent from the destinations, each enumerated file ends the run in at
least one of the three places, never in two of them, and it is still in
landing/ exactly when its processing step raised an error - a successful
move is a relocation, so the file no longer exists in landing/. -/
theorem claim_C2_reubicacion (w : World) (evs : String → StepEnv) (name : String) (s : Nat)
    (hdir : w.landingDirExists = true)
    (hnodup : (keys w.landing).Nodup)
    (hlk : lookupKey name w.landing = some s)
    (hbz : hasKey name w.bronze = false)
    (hbd : hasKey name w.badData = false) :
    (hasKey name (ejecutar_pipeline w true true evs).1.landing = true ∨
     hasKey name (ejecutar_pipeline w true true evs).1.bronze = true ∨
     hasKey name (ejecutar_pipeline w true true evs).1.badData = true) ∧
    ¬(hasKey name (ejecutar_pipeline w true true evs).1.landing = true ∧
      hasKey name (ejecutar_pipeline w true true evs).1.bronze = true) ∧
    ¬(hasKey name (ejecutar_pipeline w true true evs).1.landing = true ∧
      hasKey name (ejecutar_pipeline w true true evs).1.badData = true) ∧
    ¬(hasKey name (ejecutar_pipeline w true true evs).1.bronze = true ∧
      hasKey name (ejecutar_pipeline w true true evs).1.badData = true) ∧
    (hasKey name (ejecutar_pipeline w true true evs).1.landing = true ↔
      (evs name).isError = true) := by
  have hne := landing_ne_nil_of_lookupKey name w.landing s hlk
  have hd := pipeline_done_spec w evs hdir hne
  have hmem := mem_keys_of_lookupKey name w.landing s hlk
  have htr := procesar_loop_tracked evs name s (keys w.landing)
    (preRun w w.landing.length) 0 0 0 hmem hnodup hlk hbz hbd
  rw [hd.2.1, hd.2.2.1, hd.2.2.2.1]
  cases hev : (evs name).isError with
  | true =>
    rw [hev] at htr
    simp only [trackedOutcome, if_true] at htr
    simp [htr.1, htr.2.1, htr.2.2]
  | false =>
    rw [hev] at htr
    simp only [trackedOutcome, Bool.false_eq_true, if_false] at htr
    obtain ⟨h1, h2 | h2⟩ := htr
    · simp [h1, h2.2.1, h2.2.2]
    · simp [h1, h2.2.1, h2.2.2]

/-- Witness for C2: the empty file vacio.csv ends the run in bad_data/,
not in landing/ - its step did not error. -/
theorem claim_C2_witness :
    (keys wDos.landing).Nodup ∧
    (hasKey "vacio.csv" (ejecutar_pipeline wDos true true (fun _ => StepEnv.ok)).1.landing = true ↔
      ((fun _ => StepEnv.ok) "vacio.csv").isError = true) :=
  ⟨by decide,
    (claim_C2_reubicacion wDos (fun _ => StepEnv.ok) "vacio.csv" 0 (by decide) (by decide)
      (by decide) (by decide) (by decide)).2.2.2.2⟩

/-- C3: evidence of the counter mis-attribution. With bronze/ already
holding a file named datos.csv, the run whose single landing/ file is an
empty datos.csv moves it to bad_data/ and leaves bronze/ unchanged, yet
reports one file moved to bronze/ and none moved to bad_data/
(`RunResult.done 1 0 0 false`): the attribution checks the existence of
bronze/<name> after the move instead of the move direction. -/
theorem claim_C3_contadores :
    (ejecutar_pipeline wColision true true (fun _ => StepEnv.ok)).2 =
      RunResult.done 1 0 0 false ∧
    (ejecutar_pipeline wColision true true (fun _ => StepEnv.ok)).1.bronze =
      wColision.bronze ∧
    hasKey "datos.csv"
      (ejecutar_pipeline wColision true true (fun _ => StepEnv.ok)).1.badData = true := by
  decide

/-- C4: whenever a run reaches its summary, the three counters add up to
the number of files enumerated in landing/ at scan start. -/
theorem claim_C4_suma_contadores (w : World) (mk1 mk2 : Bool) (evs : String → StepEnv)
    (p r e : Nat) (lf : Bool)
    (h : (ejecutar_pipeline w mk1 mk2 evs).2 = RunResult.done p r e lf) :
    p + r + e = w.landing.length := by
  cases mk1 with
  | false =>
    rw [(pipeline_fatal_spec w false mk2 evs (Or.inl rfl)).1] at h
    exact RunResult.noConfusion h
  | true =>
    cases mk2 with
    | false =>
      rw [(pipeline_fatal_spec w true false evs (Or.inr rfl)).1] at h
      exact RunResult.noConfusion h
    | true =>
      cases hdir : w.landingDirExists with
      | false =>
        rw [(pipeline_noLanding_spec w evs hdir).1] at h
        exact RunResult.noConfusion h
      | true =>
        by_cases hl : w.landing = []
        · rw [(pipeline_sinArchivos_spec w evs hdir hl).1] at h
          exact RunResult.noConfusion h
        · rw [(pipeline_done_spec w evs hdir hl).1, RunResult.done.injEq] at h
          obtain ⟨hp, hr, he, _⟩ := h
          have hs := procesar_loop_sum evs (keys w.landing)
            (preRun w w.landing.length) 0 0 0
          rw [hp, hr, he] at hs
          simpa using hs

/-- Witness for C4: two files, both processed, counters 1 + 1 + 0. -/
theorem claim_C4_witness :
    (ejecutar_pipeline wDos true true (fun _ => StepEnv.ok)).2 =
      RunResult.done 1 1 0 false ∧
    1 + 1 + 0 = wDos.landing.length :=
  ⟨by decide,
    claim_C4_suma_contadores wDos true true (fun _ => StepEnv.ok) 1 1 0 false (by decide)⟩

/-- C5: an exception during a file's stat or move is contained in that
file's step: the step returns false, the filesystem listings are
untouched, and the batch loop goes on to the next file with only the
errored counter incremented. -/
theorem claim_C5_error_contenido (w : World) (name : String) (rest : List String)
    (evs : String → StepEnv) (p r e : Nat)
    (h : (evs name).isError = true) :
    (procesar_archivo w name (evs name)).1 = false ∧
    (procesar_archivo w name (evs name)).2.landing = w.landing ∧
    (procesar_archivo w name (evs name)).2.bronze = w.bronze ∧
    (procesar_archivo w name (evs name)).2.badData = w.badData ∧
    procesar_loop evs (name :: rest) w p r e =
      procesar_loop evs rest (procesar_archivo w name (evs name)).2 p r (e + 1) := by
  have he := procesar_archivo_error w name (evs name) h
  refine ⟨he.1, he.2.1, he.2.2.1, he.2.2.2, ?_⟩
  rw [procesar_loop_cons, he.1]
  simp

/-- Witness for C5: a FileNotFoundError step is recorded as an error and
the loop continues. -/
theorem claim_C5_witness :
    (evsError "datos.csv").isError = true ∧
    procesar_loop evsError ["datos.csv"] wUno 0 0 0 =
      procesar_loop evsError []
        (procesar_archivo wUno "datos.csv" (evsError "datos.csv")).2 0 0 1 :=
  ⟨by decide,
    (claim_C5_error_contenido wUno "datos.csv" [] evsError 0 0 0 (by decide)).2.2.2.2⟩

/-- C6: if creating a destination directory fails, the run ends as
`fatal` - the exception is re-raised past the pipeline entry point - with
both critical log lines emitted and with no file moved: landing/, bronze/
and bad_data/ keep exactly their prior contents. -/
theorem claim_C6_mkdir_fatal (w : World) (mk1 mk2 : Bool) (evs : String → StepEnv)
    (h : mk1 = false ∨ mk2 = false) :
    (ejecutar_pipeline w mk1 mk2 evs).2 = RunResult.fatal ∧
    (ejecutar_pipeline w mk1 mk2 evs).1.landing = w.landing ∧
    (ejecutar_pipeline w mk1 mk2 evs).1.bronze = w.bronze ∧
    (ejecutar_pipeline w mk1 mk2 evs).1.badData = w.badData ∧
    (Level.critical, LogMsg.errorCriticoCarpetas) ∈ (ejecutar_pipeline w mk1 mk2 evs).1.log ∧
    (Level.critical, LogMsg.errorFatalPipeline) ∈ (ejecutar_pipeline w mk1 mk2 evs).1.log :=
  pipeline_fatal_spec w mk1 mk2 evs h

/-- Witness for C6: the first mkdir fails and the run is fatal. -/
theorem claim_C6_witness :
    (ejecutar_pipeline wUno false true (fun _ => StepEnv.ok)).2 = RunResult.fatal :=
  (claim_C6_mkdir_fatal wUno false true (fun _ => StepEnv.ok) (Or.inl rfl)).1

/-- C7: a run over an absent landing/ creates it empty and ends quietly, a
run over an empty landing/ ends quietly, and in both cases no move is
performed; a second consecutive run whose landing/ is empty leaves the
contents of bronze/ and bad_data/ unchanged. -/
theorem claim_C7_origen_vacio (w : World) (evs evs2 : String → StepEnv) :
    (w.landingDirExists = false → w.landing = [] →
      (ejecutar_pipeline w true true evs).2 = RunResult.landingCreada ∧
      (ejecutar_pipeline w true true evs).1.landingDirExists = true ∧
      (ejecutar_pipeline w true true evs).1.landing = [] ∧
      (ejecutar_pipeline w true true evs).1.bronze = w.bronze ∧
      (ejecutar_pipeline w true true evs).1.badData = w.badData) ∧
    (w.landingDirExists = true → w.landing = [] →
      (ejecutar_pipeline w true true evs).2 = RunResult.sinArchivos ∧
      (ejecutar_pipeline w true true evs).1.landing = [] ∧
      (ejecutar_pipeline w true true evs).1.bronze = w.bronze ∧
      (ejecutar_pipeline w true true evs).1.badData = w.badData) ∧
    ((ejecutar_pipeline w true true evs).1.landing = [] →
      (ejecutar_pipeline (ejecutar_pipeline w true true evs).1 true true evs2).1.bronze =
        (ejecutar_pipeline w true true evs).1.bronze ∧
      (ejecutar_pipeline (ejecutar_pipeline w true true evs).1 true true evs2).1.badData =
        (ejecutar_pipeline w true true evs).1.badData) := by
  refine ⟨?_, ?_, ?_⟩
  · intro hdir hl
    have hs := pipeline_noLanding_spec w evs hdir
    exact ⟨hs.1, hs.2.1, hs.2.2.1.trans hl, hs.2.2.2.1, hs.2.2.2.2⟩
  · intro hdir hl
    have hs := pipeline_sinArchivos_spec w evs hdir hl
    exact ⟨hs.1, hs.2.2.1.trans hl, hs.2.2.2.1, hs.2.2.2.2⟩
  · intro h
    exact pipeline_empty_preserves (ejecutar_pipeline w true true evs).1 evs2 h

/-- Witness for C7: the empty-landing run ends as `sinArchivos`. -/
theorem claim_C7_witness :
    wVacio.landingDirExists = true ∧ wVacio.landing = [] ∧
    (ejecutar_pipeline wVacio true true (fun _ => StepEnv.ok)).2 = RunResult.sinArchivos :=
  ⟨rfl, rfl,
    ((claim_C7_origen_vacio wVacio (fun _ => StepEnv.ok) (fun _ => StepEnv.ok)).2.1
      rfl rfl).1⟩

/-- C8 counterexample: a run in which landing/ exists but holds no regular
file (only the subdirectory subcarpeta) returns early: it emits none of
the summary-count lines, no leftover warning and no success confirmation,
although an entry remains in landing/ - refuting the claim for zero-file
runs. -/
theorem claim_C8_contraejemplo :
    wSinArchivos.landingDirExists = true ∧
    wSinArchivos.landingSubdirs ≠ [] ∧
    (ejecutar_pipeline wSinArchivos true true (fun _ => StepEnv.ok)).2 =
      RunResult.sinArchivos ∧
    mentionsResumen
      (ejecutar_pipeline wSinArchivos true true (fun _ => StepEnv.ok)).1.log = false := by
  decide

/-- C8 (amended to runs that find at least one file): the run ends with
the summary block - total, moved-to-bronze, moved-to-bad-data, errored
counts and the elapsed-time line - followed by exactly one closing line:
a warning naming the number of leftover entries if any remain in
landing/, and the success confirmation otherwise. -/
theorem claim_C8_resumen (w : World) (evs : String → StepEnv)
    (hdir : w.landingDirExists = true) (hne : w.landing ≠ []) :
    ∃ p r e l1,
      (ejecutar_pipeline w true true evs).2 = RunResult.done p r e
        (!(keys (ejecutar_pipeline w true true evs).1.landing ++
           (ejecutar_pipeline w true true evs).1.landingSubdirs).isEmpty) ∧
      (ejecutar_pipeline w true true evs).1.log =
        l1 ++ resumenLog w.landing.length p r e ++
          [if (keys (ejecutar_pipeline w true true evs).1.landing ++
               (ejecutar_pipeline w true true evs).1.landingSubdirs).isEmpty
           then (Level.info, LogMsg.landingVaciaExito)
           else (Level.warning, LogMsg.advertenciaQuedan
             (keys (ejecutar_pipeline w true true evs).1.landing ++
              (ejecutar_pipeline w true true evs).1.landingSubdirs).length)] := by
  have hd := pipeline_done_spec w evs hdir hne
  refine ⟨(procesar_loop evs (keys w.landing) (preRun w w.landing.length) 0 0 0).2.1,
    (procesar_loop evs (keys w.landing) (preRun w w.landing.length) 0 0 0).2.2.1,
    (procesar_loop evs (keys w.landing) (preRun w w.landing.length) 0 0 0).2.2.2,
    (procesar_loop evs (keys w.landing) (preRun w w.landing.length) 0 0 0).1.log, ?_, ?_⟩
  · rw [hd.2.1, hd.2.2.2.2.1]
    exact hd.1
  · rw [hd.2.1, hd.2.2.2.2.1]
    exact hd.2.2.2.2.2

/-- Witness for C8: the one-file run emits the summary and, landing/ being
left empty, the success confirmation. -/
theorem claim_C8_witness :
    wUno.landing ≠ [] ∧
    (∃ p r e l1,
      (ejecutar_pipeline wUno true true (fun _ => StepEnv.ok)).2 = RunResult.done p r e
        (!(keys (ejecutar_pipeline wUno true true (fun _ => StepEnv.ok)).1.landing ++
           (ejecutar_pipeline wUno true true (fun _ => StepEnv.ok)).1.landingSubdirs).isEmpty) ∧
      (ejecutar_pipeline wUno true true (fun _ => StepEnv.ok)).1.log =
        l1 ++ resumenLog wUno.landing.length p r e ++
          [if (keys (ejecutar_pipeline wUno true true (fun _ => StepEnv.ok)).1.landing ++
               (ejecutar_pipeline wUno true true (fun _ => StepEnv.ok)).1.landingSubdirs).isEmpty
           then (Level.info, LogMsg.landingVaciaExito)
           else (Level.warning, LogMsg.advertenciaQuedan
             (keys (ejecutar_pipeline wUno true true (fun _ => StepEnv.ok)).1.landing ++
              (ejecutar_pipeline wUno true true (fun _ => StepEnv.ok)).1.landingSubdirs).length)]) :=
  ⟨by decide, claim_C8_resumen wUno (fun _ => StepEnv.ok) rfl (by decide)⟩

/-- C9: with the two mkdir calls succeeding, every run - also one that
returns early because landing/ is absent or holds no file - leaves both
bronze/ and bad_data/ existing. -/
theorem claim_C9_carpetas_destino (w : World) (evs : String → StepEnv) :
    (ejecutar_pipeline w true true evs).1.bronzeDirExists = true ∧
    (ejecutar_pipeline w true true evs).1.badDataDirExists = true := by
  cases hdir : w.landingDirExists with
  | false => simp [ejecutar_pipeline, crear_carpetas_destino, logA, hdir]
  | true =>
    by_cases hl : w.landing = []
    · simp [ejecutar_pipeline, crear_carpetas_destino, logA, hdir, hl, keys, List.isEmpty]
    · exact pipeline_done_dirs w evs hdir hl

/-- Witness for C9: even the empty-landing early return leaves bronze/
existing. -/
theorem claim_C9_witness :
    (ejecutar_pipeline wVacio true true (fun _ => StepEnv.ok)).1.bronzeDirExists = true :=
  (claim_C9_carpetas_destino wVacio (fun _ => StepEnv.ok)).1

/-- C10: `procesar_archivo` is total over error outcomes: it returns true
exactly when the step's environment is exception-free and the file exists
to be moved - in which case the file leaves landing/ for exactly one
destination - and it returns false exactly on an exception, in which case
no listing changes. -/
theorem claim_C10_resultado (w : World) (name : String) (ev : StepEnv) :
    ((procesar_archivo w name ev).1 = true ↔
      ev = StepEnv.ok ∧ hasKey name w.landing = true) ∧
    ((procesar_archivo w name ev).1 = false →
      (procesar_archivo w name ev).2.landing = w.landing ∧
      (procesar_archivo w name ev).2.bronze = w.bronze ∧
      (procesar_archivo w name ev).2.badData = w.badData) ∧
    ((procesar_archivo w name ev).1 = true →
      ∃ s, lookupKey name w.landing = some s ∧
        (procesar_archivo w name ev).2.landing = eraseKey name w.landing ∧
        ((0 < s ∧ (procesar_archivo w name ev).2.bronze = insertKey name s w.bronze ∧
            (procesar_archivo w name ev).2.badData = w.badData) ∨
         (s = 0 ∧ (procesar_archivo w name ev).2.badData = insertKey name s w.badData ∧
            (procesar_archivo w name ev).2.bronze = w.bronze))) := by
  cases ev with
  | statRaises e =>
    have he := procesar_archivo_error w name (StepEnv.statRaises e) rfl
    refine ⟨?_, fun _ => he.2, ?_⟩
    · rw [he.1]; simp
    · rw [he.1]; simp
  | moveRaises e =>
    have he := procesar_archivo_error w name (StepEnv.moveRaises e) rfl
    refine ⟨?_, fun _ => he.2, ?_⟩
    · rw [he.1]; simp
    · rw [he.1]; simp
  | ok =>
    cases hlk : lookupKey name w.landing with
    | none =>
      have he := procesar_archivo_ok_none w name hlk
      refine ⟨?_, fun _ => he.2, ?_⟩
      · rw [he.1, hasKey_eq_isSome, hlk]; simp
      · rw [he.1]; simp
    | some s =>
      have ho := procesar_archivo_ok_some w name s hlk
      refine ⟨?_, ?_, ?_⟩
      · rw [ho.1, hasKey_eq_isSome, hlk]; simp
      · rw [ho.1]; simp
      · intro _
        refine ⟨s, rfl, ho.2.1, ?_⟩
        by_cases hs : 0 < s
        · exact Or.inl ⟨hs, (ho.2.2.1 hs).1, (ho.2.2.1 hs).2⟩
        · have hz : s = 0 := by omega
          exact Or.inr ⟨hz, (ho.2.2.2 hz).1, (ho.2.2.2 hz).2⟩

/-- Witness for C10: the exception-free step on a present file returns
true. -/
theorem claim_C10_witness :
    (procesar_archivo wUno "datos.csv" StepEnv.ok).1 = true :=
  (claim_C10_resultado wUno "datos.csv" StepEnv.ok).1.mpr ⟨rfl, by decide⟩

end Ingestor
